import Mathlib

/-
Shallow embedding of the simple_logging library (src/simple_logging/loggers.py
and src/simple_logging/handlers/) for checking the specification claims.

Python values appearing as template substitutions are modelled as strings;
a default or per-call override is either a literal or a zero-argument
producer function (a callable).  Side effects of a log call (producer
invocations and handler writes) are made explicit as an event trace.
Literal brace characters in template strings are written with the escape
codes \x7b and \x7d.
-/

set_option maxRecDepth 4000

/-- Embeds LogLevel (loggers.py lines 13-17), an IntEnum with
DEBUG = 0, INFO = 1, WARNING = 2, ERROR = 3. -/
inductive LogLevel where
  | DEBUG
  | INFO
  | WARNING
  | ERROR
deriving DecidableEq

/-- The integer rank of a level, used for the threshold comparison. -/
def LogLevel.toNat : LogLevel → Nat
  | .DEBUG => 0
  | .INFO => 1
  | .WARNING => 2
  | .ERROR => 3

/-- The canonical name of a level, the IntEnum member name in Python. -/
def LogLevel.levelName : LogLevel → String
  | .DEBUG => "DEBUG"
  | .INFO => "INFO"
  | .WARNING => "WARNING"
  | .ERROR => "ERROR"

/-- A default or override value: either a literal string or a callable
(zero-argument producer).  A callable carries an identity, used to record
its invocation in the event trace, and the string it returns. -/
inductive Value where
  | lit (s : String)
  | callable (id : Nat) (ret : String)
deriving DecidableEq

/-- Embeds the expression: value() if callable(value) else value. -/
def Value.resolve : Value → String
  | .lit s => s
  | .callable _ ret => ret

/-- Python truthiness of a value: an empty string is falsy, a non-empty
string is truthy, a function object is truthy. -/
def Value.truthy : Value → Bool
  | .lit s => !s.data.isEmpty
  | .callable _ _ => true

/-- How a value renders when stored in the context without being resolved,
as happens for a truthy override popped for timestamp, level or name: a
literal keeps its text and a function object formats as its repr. -/
def Value.rawFormat : Value → String
  | .lit s => s
  | .callable id _ => "<function " ++ toString id ++ ">"

/-- Lookup in a Python dict modelled as an association list
(first matching key wins; dict construction keeps keys distinct). -/
def dlookup {α : Type} : List (String × α) → String → Option α
  | [], _ => none
  | p :: rest, k => if p.1 = k then some p.2 else dlookup rest k

/-- Dict item assignment: replace the value of an existing key in place,
or append a new entry at the end, as a Python dict does. -/
def dset {α : Type} : List (String × α) → String → α → List (String × α)
  | [], k, v => [(k, v)]
  | p :: rest, k, v => if p.1 = k then (k, v) :: rest else p :: dset rest k v

/-- ASCII letters, digits and underscore: the character class of the
keyname_regex pattern (loggers.py line 10). -/
def isKeyChar (c : Char) : Bool :=
  ('a' ≤ c && c ≤ 'z') || ('A' ≤ c && c ≤ 'Z') || ('0' ≤ c && c ≤ '9') || c = '_'

/-- Embeds re.findall(keyname_regex, template): a left-to-right scan for
non-overlapping matches of an opening brace, a non-empty run of key
characters, and a closing brace, returning the captured identifier of every
match in occurrence order.  The state is none outside a candidate match and
some acc (reversed identifier characters read so far) after an opening
brace; when a candidate fails, the regex engine resumes one position after
the opening brace, which this scan reproduces because the consumed
characters are key characters and cannot start a new match. -/
def scanKeys : Option (List Char) → List Char → List String
  | _, [] => []
  | none, c :: rest =>
      if c = '{' then scanKeys (some []) rest else scanKeys none rest
  | some acc, c :: rest =>
      if isKeyChar c then scanKeys (some (c :: acc)) rest
      else if c = '}' then
        match acc with
        | [] => scanKeys none rest
        | a :: as => String.mk (List.reverse (a :: as)) :: scanKeys none rest
      else if c = '{' then scanKeys (some []) rest
      else scanKeys none rest

/-- The key extraction applied to a template string
(loggers.py lines 101 and 103-106). -/
def findallKeys (template : String) : List String :=
  scanKeys none template.data

/-- Parser state of str.format over the template: outside any field, just
after an opening brace, just after a closing brace, or inside a field name
(characters accumulated in reverse). -/
inductive FmtMode where
  | outside
  | afterOpen
  | afterClose
  | inField (acc : List Char)

/-- Embeds template.format(**kwargs) (loggers.py line 206): a doubled brace
is a literal brace, a field enclosed in braces is replaced by the value of
its name in kwargs, a field name missing from kwargs, an unmatched brace or
an empty field raises (modelled as none).  Conversion and format
specifications inside a field are not modelled; every template considered
here uses plain identifier fields. -/
def fmtScan (d : List (String × String)) : FmtMode → List Char → Option (List Char)
  | .outside, [] => some []
  | .afterOpen, [] => none
  | .afterClose, [] => none
  | .inField _, [] => none
  | .outside, c :: rest =>
      if c = '{' then fmtScan d .afterOpen rest
      else if c = '}' then fmtScan d .afterClose rest
      else (fun t => c :: t) <$> fmtScan d .outside rest
  | .afterOpen, c :: rest =>
      if c = '{' then (fun t => '{' :: t) <$> fmtScan d .outside rest
      else if c = '}' then none
      else fmtScan d (.inField [c]) rest
  | .afterClose, c :: rest =>
      if c = '}' then (fun t => '}' :: t) <$> fmtScan d .outside rest
      else none
  | .inField acc, c :: rest =>
      if c = '}' then
        match dlookup d (String.mk acc.reverse) with
        | some v => (fun t => v.data ++ t) <$> fmtScan d .outside rest
        | none => none
      else fmtScan d (.inField (c :: acc)) rest

/-- template.format(**kwargs) on whole strings. -/
def pyFormat (template : String) (d : List (String × String)) : Option String :=
  (fmtScan d .outside template.data).map String.mk

/-- Embeds output.endswith of a newline: the last character is a newline. -/
def endsWithNewline (s : String) : Bool :=
  match s.data.getLast? with
  | some c => c = '\n'
  | none => false

/-- Embeds the newline normalization (loggers.py lines 207-208): when the
flag is set and the rendered output does not already end with a newline,
append one. -/
def normalizeNewline (ensure : Bool) (out : String) : String :=
  if ensure && !endsWithNewline out then out ++ "\n" else out

/-- One loop iteration of the fan-out renders the template and normalizes
the newline before the handler write. -/
def renderOnce (template : String) (kwargs : List (String × String))
    (ensure : Bool) : Option String :=
  (pyFormat template kwargs).map (normalizeNewline ensure)

/-- A handler (sink) as the core sees it: a collaborator with a single
write operation.  The fails flag abstracts whether its write raises. -/
structure Handler where
  fails : Bool
deriving DecidableEq

/-- The shared class-level default handler, a StdOutHandler
(loggers.py line 78); its stream write does not raise. -/
def defaultHandler : Handler := Handler.mk false

/-- Observable side effects of a log call: a producer invocation (with the
key it was stored under and the callable identity), a completed handler
write, or a handler write that was attempted and raised. -/
inductive Event where
  | call (key : String) (id : Nat)
  | write (idx : Nat) (text : String)
  | writeRaised (idx : Nat) (text : String)
deriving DecidableEq

/-- A write or an attempted write, as opposed to a producer invocation. -/
def isWriteEvent : Event → Bool
  | .call _ _ => false
  | .write _ _ => true
  | .writeRaised _ _ => true

/-- The producer invocations performed while resolving a dict of values in
iteration order (the comprehensions at loggers.py lines 178-181 and
194-199). -/
def producerCalls (l : List (String × Value)) : List Event :=
  l.filterMap (fun p =>
    match p.2 with
    | .callable id _ => some (Event.call p.1 id)
    | .lit _ => none)

/-- Embeds the fan-out loop (loggers.py lines 205-209): for each handler in
order, render the template against the assembled context, normalize the
newline, and write.  A render error or a raising write propagates to the
caller (second component false) and aborts the remaining iterations. -/
def fanout (handlers : List Handler) (idx : Nat) (template : String)
    (kwargs : List (String × String)) (ensure : Bool) : List Event × Bool :=
  match handlers with
  | [] => ([], true)
  | h :: rest =>
      match renderOnce template kwargs ensure with
      | none => ([], false)
      | some out =>
          if h.fails then ([Event.writeRaised idx out], false)
          else
            let r := fanout rest (idx + 1) template kwargs ensure
            (Event.write idx out :: r.1, r.2)

/-- The Logger data (loggers.py lines 80-101). -/
structure Logger where
  name : String
  level : LogLevel
  template : String
  handlers : List Handler
  ensure_new_lines : Bool
  defaults : List (String × Value)
  keys : List String
deriving DecidableEq

/-- Embeds Logger.__init__ (loggers.py lines 80-101): the handler list is
the handlers argument if supplied and non-empty, with the singular handler
appended if supplied, falling back to the shared default handler when still
empty; the key set is derived from the template immediately. -/
def Logger.init (name : String) (level : LogLevel) (template : String)
    (handler : Option Handler) (handlers : Option (List Handler))
    (ensure_new_lines : Bool) (defaults : List (String × Value)) : Logger :=
  let hs0 := match handlers with
    | some l => l
    | none => []
  let hs1 := match handler with
    | some h => hs0 ++ [h]
    | none => hs0
  let hs2 := if hs1.isEmpty then [defaultHandler] else hs1
  Logger.mk name level template hs2 ensure_new_lines defaults (findallKeys template)

/-- Embeds the template branch of Logger.__setattr__ (loggers.py lines
103-106): replacing the template re-derives the key set. -/
def Logger.setTemplate (lg : Logger) (t : String) : Logger :=
  Logger.mk lg.name lg.level t lg.handlers lg.ensure_new_lines lg.defaults
    (findallKeys t)

/-- Replacing only the level field of a logger. -/
def Logger.withLevel (lg : Logger) (l : LogLevel) : Logger :=
  Logger.mk lg.name l lg.template lg.handlers lg.ensure_new_lines lg.defaults
    lg.keys

/-- Embeds the idiom popped or fallback applied to the values popped for
timestamp, level and name (loggers.py lines 185-192): an absent or falsy
popped value gives the computed fallback, a truthy one is stored raw. -/
def pickSpecial (popped : Option Value) (fallback : String) : String :=
  match popped with
  | some v => if v.truthy then v.rawFormat else fallback
  | none => fallback

/-- The overrides dict after the three pops of timestamp, level and name
(loggers.py lines 185-192). -/
def dropSpecial (ov : List (String × Value)) : List (String × Value) :=
  ((ov.filter (fun p => !(p.1 == "timestamp"))).filter
      (fun p => !(p.1 == "level"))).filter (fun p => !(p.1 == "name"))

/-- Embeds kwargs.update over the resolved remaining overrides
(loggers.py lines 194-199). -/
def dupdate : List (String × String) → List (String × Value) →
    List (String × String)
  | d, [] => d
  | d, p :: rest => dupdate (dset d p.1 p.2.resolve) rest

/-- Embeds the missing-key loop (loggers.py lines 201-203): every template
key absent from kwargs is set to a backspace character. -/
def fillMissing : List String → List (String × String) → List (String × String)
  | [], d => d
  | k :: rest, d =>
      fillMissing rest (if (dlookup d k).isSome then d else dset d k "\x08")

/-- The substitution context after steps 2a-2f of the render algorithm
(loggers.py lines 178-199): resolved defaults, then message, then the
popped-or-computed timestamp, level and name, then the resolved remaining
overrides merged on top.  The now argument stands for
datetime.now().isoformat(). -/
def assembleBase (lg : Logger) (level : LogLevel) (message now : String)
    (overrides : List (String × Value)) : List (String × String) :=
  dupdate
    (dset
      (dset
        (dset
          (dset (lg.defaults.map (fun p => (p.1, p.2.resolve))) "message" message)
          "timestamp" (pickSpecial (dlookup overrides "timestamp") now))
        "level" (pickSpecial (dlookup overrides "level") level.levelName))
      "name" (pickSpecial (dlookup overrides "name") lg.name))
    (dropSpecial overrides)

/-- The full substitution context, after the missing-key sentinel loop
(loggers.py lines 201-203). -/
def assembleContext (lg : Logger) (level : LogLevel) (message now : String)
    (overrides : List (String × Value)) : List (String × String) :=
  fillMissing lg.keys (assembleBase lg level message now overrides)

/-- Embeds Logger._log (loggers.py lines 174-209).  The returned event list
records producer invocations and handler writes in program order; the
boolean is true when the call returned normally and false when an exception
(render error or handler write) propagated to the caller. -/
def Logger.logAt (lg : Logger) (level : LogLevel) (message now : String)
    (overrides : List (String × Value)) : List Event × Bool :=
  if level.toNat < lg.level.toNat then ([], true)
  else
    (producerCalls lg.defaults
       ++ producerCalls (dropSpecial overrides)
       ++ (fanout lg.handlers 0 lg.template
             (assembleContext lg level message now overrides)
             lg.ensure_new_lines).1,
     (fanout lg.handlers 0 lg.template
        (assembleContext lg level message now overrides)
        lg.ensure_new_lines).2)

/-- Logger.debug (loggers.py lines 108-119). -/
def Logger.debug (lg : Logger) (message now : String)
    (overrides : List (String × Value)) : List Event × Bool :=
  lg.logAt LogLevel.DEBUG message now overrides

/-- Logger.info (loggers.py lines 121-132). -/
def Logger.info (lg : Logger) (message now : String)
    (overrides : List (String × Value)) : List Event × Bool :=
  lg.logAt LogLevel.INFO message now overrides

/-- Logger.warning (loggers.py lines 134-145). -/
def Logger.warning (lg : Logger) (message now : String)
    (overrides : List (String × Value)) : List Event × Bool :=
  lg.logAt LogLevel.WARNING message now overrides

/-- Logger.error (loggers.py lines 147-158). -/
def Logger.error (lg : Logger) (message now : String)
    (overrides : List (String × Value)) : List Event × Bool :=
  lg.logAt LogLevel.ERROR message now overrides

/-- Models traceback.format_exc from the Python standard library, an
external collaborator: the fully formatted trace of the exception currently
being handled, or the text NoneType: None with a trailing newline when no
exception is active. -/
def format_exc : Option String → String
  | some trace => trace
  | none => "NoneType: None\n"

/-- Embeds Logger.exception (loggers.py lines 160-172): the message is
extended with a newline and the formatted current trace, then logged at
ERROR level.  The excTrace argument is the trace of the exception being
handled in the calling context, if any. -/
def Logger.exception (lg : Logger) (message : String)
    (excTrace : Option String) (now : String)
    (overrides : List (String × Value)) : List Event × Bool :=
  lg.logAt LogLevel.ERROR (message ++ "\n" ++ format_exc excTrace) now overrides

/-- The writes issued to handlers idx, idx+1, ... with the same text. -/
def writesFrom (idx : Nat) (out : String) : Nat → List Event
  | 0 => []
  | n + 1 => Event.write idx out :: writesFrom (idx + 1) out n

/-- Concrete logger of the level-filtering claim: well-formed template. -/
def lgLevelW : Logger :=
  Logger.init "t" LogLevel.INFO "\x7bmessage\x7d" none none true []

/-- Concrete logger with a malformed template (a single opening brace),
whose render raises, used against the level-filtering claim. -/
def lgLevelC : Logger :=
  Logger.init "n" LogLevel.INFO "\x7b" none none true []

/-- Concrete logger of the missing-key sentinel claim. -/
def lgSentinel : Logger :=
  Logger.init "test" LogLevel.INFO "\x7bfoo\x7d: \x7bmessage\x7d" none none true []

/-- Concrete logger of the override-precedence claim: a default for foo. -/
def lgOverride : Logger :=
  Logger.init "test" LogLevel.INFO "\x7bfoo\x7d: \x7bmessage\x7d" none none true
    [("foo", Value.lit "bar")]

/-- Concrete logger with a default for timestamp, used against the
override-precedence claim with a falsy timestamp override. -/
def lgOverrideC : Logger :=
  Logger.init "n" LogLevel.INFO "\x7btimestamp\x7d" none none true
    [("timestamp", Value.lit "D")]

/-- Concrete logger whose template field is not an extractable key, so the
render raises although no sink fails, used against the fan-out claim. -/
def lgFanoutC : Logger :=
  Logger.init "n" LogLevel.INFO "\x7ba b\x7d" none none true []

/-- Concrete logger of the message-override claim. -/
def lgMessage : Logger :=
  Logger.init "n" LogLevel.INFO "\x7bmessage\x7d" none none true []

theorem dlookup_dset_self {α : Type} (d : List (String × α)) (k : String)
    (v : α) : dlookup (dset d k v) k = some v := by
  induction d with
  | nil => simp [dset, dlookup]
  | cons p rest ih =>
      by_cases h : p.1 = k
      · simp [dset, h, dlookup]
      · simp [dset, h, dlookup, ih]

theorem dlookup_dset_of_ne {α : Type} (d : List (String × α)) (k k' : String)
    (v : α) (h : k ≠ k') : dlookup (dset d k v) k' = dlookup d k' := by
  induction d with
  | nil => simp [dset, dlookup, h]
  | cons p rest ih =>
      by_cases hp : p.1 = k
      · have hpk : ¬ p.1 = k' := fun he => h (hp ▸ he)
        simp only [dset, if_pos hp, dlookup, if_neg h, if_neg hpk]
      · simp only [dset, if_neg hp, dlookup]
        by_cases hpk : p.1 = k'
        · rw [if_pos hpk, if_pos hpk]
        · rw [if_neg hpk, if_neg hpk]
          exact ih

theorem dlookup_dupdate_of_not_mem : ∀ (l : List (String × Value))
    (d : List (String × String)) (k : String), k ∉ l.map Prod.fst →
    dlookup (dupdate d l) k = dlookup d k := by
  intro l
  induction l with
  | nil => intro d k _; rfl
  | cons p rest ih =>
      intro d k hk
      simp only [List.map_cons, List.mem_cons] at hk
      push_neg at hk
      show dlookup (dupdate (dset d p.1 p.2.resolve) rest) k = dlookup d k
      rw [ih _ k hk.2]
      exact dlookup_dset_of_ne _ _ _ _ (fun he => hk.1 he.symm)

theorem dlookup_dupdate_of_mem : ∀ (l : List (String × Value))
    (d : List (String × String)) (k : String) (v : Value),
    (l.map Prod.fst).Nodup → dlookup l k = some v →
    dlookup (dupdate d l) k = some v.resolve := by
  intro l
  induction l with
  | nil => intro d k v _ hv; simp [dlookup] at hv
  | cons p rest ih =>
      intro d k v hnd hv
      simp only [List.map_cons, List.nodup_cons] at hnd
      show dlookup (dupdate (dset d p.1 p.2.resolve) rest) k = some v.resolve
      by_cases hp : p.1 = k
      · have hv2 : p.2 = v := by
          simp only [dlookup, if_pos hp] at hv
          exact Option.some.inj hv
        rw [dlookup_dupdate_of_not_mem rest _ k (hp ▸ hnd.1), hp, hv2]
        exact dlookup_dset_self _ _ _
      · have hv' : dlookup rest k = some v := by
          simpa only [dlookup, if_neg hp] using hv
        exact ih _ k v hnd.2 hv'

theorem dlookup_fillMissing_of_isSome : ∀ (keys : List String)
    (d : List (String × String)) (k : String), (dlookup d k).isSome = true →
    dlookup (fillMissing keys d) k = dlookup d k := by
  intro keys
  induction keys with
  | nil => intro d k _; rfl
  | cons a rest ih =>
      intro d k hk
      show dlookup
          (fillMissing rest (if (dlookup d a).isSome then d else dset d a "\x08")) k
        = dlookup d k
      by_cases ha : (dlookup d a).isSome = true
      · rw [if_pos ha]
        exact ih d k hk
      · rw [if_neg ha]
        have hak : a ≠ k := fun he => ha (he ▸ hk)
        have hset : dlookup (dset d a "\x08") k = dlookup d k :=
          dlookup_dset_of_ne _ _ _ _ hak
        rw [ih _ k (by rw [hset]; exact hk), hset]

theorem dlookup_fillMissing_of_mem_none : ∀ (keys : List String)
    (d : List (String × String)) (k : String), k ∈ keys → dlookup d k = none →
    dlookup (fillMissing keys d) k = some "\x08" := by
  intro keys
  induction keys with
  | nil => intro d k hk _; simp at hk
  | cons a rest ih =>
      intro d k hk hnone
      show dlookup
          (fillMissing rest (if (dlookup d a).isSome then d else dset d a "\x08")) k
        = some "\x08"
      by_cases hak : a = k
      · subst hak
        rw [if_neg (by rw [hnone]; simp)]
        have h1 : dlookup (dset d a "\x08") a = some "\x08" :=
          dlookup_dset_self _ _ _
        rw [dlookup_fillMissing_of_isSome rest _ a (by rw [h1]; rfl), h1]
      · have hk' : k ∈ rest := by
          rcases List.mem_cons.mp hk with h | h
          · exact absurd h.symm hak
          · exact h
        by_cases ha : (dlookup d a).isSome = true
        · rw [if_pos ha]
          exact ih d k hk' hnone
        · rw [if_neg ha]
          exact ih _ k hk'
            (by rw [dlookup_dset_of_ne _ _ _ _ hak]; exact hnone)

theorem dlookup_dfilter_of_ne {β : Type} : ∀ (l : List (String × β))
    (a k : String), k ≠ a →
    dlookup (l.filter (fun p => !(p.1 == a))) k = dlookup l k := by
  intro l
  induction l with
  | nil => intro a k _; rfl
  | cons p rest ih =>
      intro a k hka
      by_cases hp : p.1 = a
      · rw [List.filter_cons_of_neg (by simp [hp])]
        have hpk : p.1 ≠ k := hp ▸ (fun he => hka he.symm)
        rw [ih a k hka]
        simp [dlookup, hpk]
      · rw [List.filter_cons_of_pos (by simp [hp])]
        by_cases hpk : p.1 = k
        · simp [dlookup, hpk]
        · simp only [dlookup, if_neg hpk]
          exact ih a k hka

theorem not_mem_map_fst_dfilter {β : Type} (l : List (String × β))
    (a : String) : a ∉ (l.filter (fun p => !(p.1 == a))).map Prod.fst := by
  intro hmem
  simp only [List.mem_map, List.mem_filter] at hmem
  rcases hmem with ⟨p, ⟨_, hp⟩, he⟩
  rw [he] at hp
  simp at hp

theorem not_mem_map_fst_filter_of_not_mem {β : Type} (l : List (String × β))
    (q : String × β → Bool) (a : String) (h : a ∉ l.map Prod.fst) :
    a ∉ (l.filter q).map Prod.fst :=
  fun hm => h (List.map_subset Prod.fst (List.filter_sublist l).subset hm)

theorem nodup_map_fst_filter {β : Type} (l : List (String × β))
    (q : String × β → Bool) (h : (l.map Prod.fst).Nodup) :
    ((l.filter q).map Prod.fst).Nodup :=
  List.Nodup.sublist ((List.filter_sublist l).map Prod.fst) h

theorem dlookup_dropSpecial_of_ne (ov : List (String × Value)) (k : String)
    (h1 : k ≠ "timestamp") (h2 : k ≠ "level") (h3 : k ≠ "name") :
    dlookup (dropSpecial ov) k = dlookup ov k := by
  unfold dropSpecial
  rw [dlookup_dfilter_of_ne _ _ _ h3, dlookup_dfilter_of_ne _ _ _ h2,
    dlookup_dfilter_of_ne _ _ _ h1]

theorem not_mem_dropSpecial_timestamp (ov : List (String × Value)) :
    "timestamp" ∉ (dropSpecial ov).map Prod.fst := by
  unfold dropSpecial
  exact not_mem_map_fst_filter_of_not_mem _ _ _
    (not_mem_map_fst_filter_of_not_mem _ _ _ (not_mem_map_fst_dfilter _ _))

theorem not_mem_dropSpecial_level (ov : List (String × Value)) :
    "level" ∉ (dropSpecial ov).map Prod.fst := by
  unfold dropSpecial
  exact not_mem_map_fst_filter_of_not_mem _ _ _ (not_mem_map_fst_dfilter _ _)

theorem not_mem_dropSpecial_name (ov : List (String × Value)) :
    "name" ∉ (dropSpecial ov).map Prod.fst := by
  unfold dropSpecial
  exact not_mem_map_fst_dfilter _ _

theorem nodup_dropSpecial (ov : List (String × Value))
    (h : (ov.map Prod.fst).Nodup) : ((dropSpecial ov).map Prod.fst).Nodup := by
  unfold dropSpecial
  exact nodup_map_fst_filter _ _ (nodup_map_fst_filter _ _
    (nodup_map_fst_filter _ _ h))

theorem dlookup_assembleBase_timestamp (lg : Logger) (level : LogLevel)
    (msg now : String) (ov : List (String × Value)) :
    dlookup (assembleBase lg level msg now ov) "timestamp"
      = some (pickSpecial (dlookup ov "timestamp") now) := by
  unfold assembleBase
  rw [dlookup_dupdate_of_not_mem _ _ _ (not_mem_dropSpecial_timestamp ov)]
  rw [dlookup_dset_of_ne _ _ _ _ (by decide)]
  rw [dlookup_dset_of_ne _ _ _ _ (by decide)]
  exact dlookup_dset_self _ _ _

theorem dlookup_assembleBase_level (lg : Logger) (level : LogLevel)
    (msg now : String) (ov : List (String × Value)) :
    dlookup (assembleBase lg level msg now ov) "level"
      = some (pickSpecial (dlookup ov "level") level.levelName) := by
  unfold assembleBase
  rw [dlookup_dupdate_of_not_mem _ _ _ (not_mem_dropSpecial_level ov)]
  rw [dlookup_dset_of_ne _ _ _ _ (by decide)]
  exact dlookup_dset_self _ _ _

theorem dlookup_assembleBase_name (lg : Logger) (level : LogLevel)
    (msg now : String) (ov : List (String × Value)) :
    dlookup (assembleBase lg level msg now ov) "name"
      = some (pickSpecial (dlookup ov "name") lg.name) := by
  unfold assembleBase
  rw [dlookup_dupdate_of_not_mem _ _ _ (not_mem_dropSpecial_name ov)]
  exact dlookup_dset_self _ _ _

theorem dlookup_assembleContext_override (lg : Logger) (level : LogLevel)
    (msg now : String) (ov : List (String × Value)) (k : String) (v : Value)
    (hnd : (ov.map Prod.fst).Nodup)
    (h1 : k ≠ "timestamp") (h2 : k ≠ "level") (h3 : k ≠ "name")
    (hv : dlookup ov k = some v) :
    dlookup (assembleContext lg level msg now ov) k = some v.resolve := by
  have hbase : dlookup (assembleBase lg level msg now ov) k = some v.resolve := by
    unfold assembleBase
    exact dlookup_dupdate_of_mem _ _ _ _ (nodup_dropSpecial ov hnd)
      (by rw [dlookup_dropSpecial_of_ne ov k h1 h2 h3]; exact hv)
  unfold assembleContext
  rw [dlookup_fillMissing_of_isSome _ _ _ (by rw [hbase]; rfl)]
  exact hbase

theorem scanKeys_sound : ∀ (cs : List Char) (mode : Option (List Char)),
    (∀ acc, mode = some acc → acc.all isKeyChar = true) →
    ∀ k ∈ scanKeys mode cs, 0 < k.data.length ∧ k.data.all isKeyChar = true := by
  intro cs
  induction cs with
  | nil =>
      intro mode _ k hk
      cases mode <;> simp [scanKeys] at hk
  | cons c rest ih =>
      intro mode hmode k hk
      cases mode with
      | none =>
          simp only [scanKeys] at hk
          by_cases hc : c = '{'
          · rw [if_pos hc] at hk
            exact ih (some []) (fun acc h => by cases h; rfl) k hk
          · rw [if_neg hc] at hk
            exact ih none (fun acc h => nomatch h) k hk
      | some acc =>
          by_cases h1 : isKeyChar c = true
          · simp only [scanKeys, if_pos h1] at hk
            refine ih (some (c :: acc)) ?_ k hk
            intro acc' h
            cases h
            simp only [List.all_cons, h1, Bool.true_and]
            exact hmode acc rfl
          · by_cases h2 : c = '}'
            · cases acc with
              | nil =>
                  simp only [scanKeys, if_neg h1, if_pos h2] at hk
                  exact ih none (fun acc' h => nomatch h) k hk
              | cons a as =>
                  simp only [scanKeys, if_neg h1, if_pos h2] at hk
                  rcases List.mem_cons.mp hk with he | hmem
                  · subst he
                    constructor
                    · simp
                    · have hall := hmode (a :: as) rfl
                      simp only [List.all_eq_true] at hall ⊢
                      intro x hx
                      exact hall x (List.mem_reverse.mp hx)
                  · exact ih none (fun acc' h => nomatch h) k hmem
            · by_cases h3 : c = '{'
              · simp only [scanKeys, if_neg h1, if_neg h2, if_pos h3] at hk
                exact ih (some []) (fun acc' h => by cases h; rfl) k hk
              · simp only [scanKeys, if_neg h1, if_neg h2, if_neg h3] at hk
                exact ih none (fun acc' h => nomatch h) k hk

theorem fanout_cons_any_write (h : Handler) (hs : List Handler) (idx : Nat)
    (t : String) (kw : List (String × String)) (e : Bool)
    (hr : (renderOnce t kw e).isSome = true) :
    (fanout (h :: hs) idx t kw e).1.any isWriteEvent = true := by
  rcases Option.isSome_iff_exists.mp hr with ⟨out, hout⟩
  by_cases hf : h.fails = true
  · simp [fanout, hout, hf, isWriteEvent]
  · simp [fanout, hout, hf, isWriteEvent]

theorem fanout_all_ok : ∀ (hs : List Handler) (idx : Nat) (t : String)
    (kw : List (String × String)) (e : Bool) (out : String),
    renderOnce t kw e = some out → hs.all (fun g => !g.fails) = true →
    fanout hs idx t kw e = (writesFrom idx out hs.length, true) := by
  intro hs
  induction hs with
  | nil => intro idx t kw e out _ _; rfl
  | cons g rest ih =>
      intro idx t kw e out hr hall
      simp only [List.all_cons, Bool.and_eq_true, Bool.not_eq_true'] at hall
      simp only [fanout, hr]
      rw [if_neg (by simp [hall.1])]
      rw [ih (idx + 1) t kw e out hr hall.2]
      rfl

theorem fanout_aborts : ∀ (pre : List Handler) (bad : Handler)
    (post : List Handler) (idx : Nat) (t : String)
    (kw : List (String × String)) (e : Bool) (out : String),
    renderOnce t kw e = some out → pre.all (fun g => !g.fails) = true →
    bad.fails = true →
    fanout (pre ++ bad :: post) idx t kw e
      = (writesFrom idx out pre.length
           ++ [Event.writeRaised (idx + pre.length) out], false) := by
  intro pre
  induction pre with
  | nil =>
      intro bad post idx t kw e out hr _ hbad
      show fanout (bad :: post) idx t kw e = _
      simp only [fanout, hr, if_pos hbad]
      simp [writesFrom]
  | cons g rest ih =>
      intro bad post idx t kw e out hr hall hbad
      simp only [List.all_cons, Bool.and_eq_true, Bool.not_eq_true'] at hall
      show fanout (g :: (rest ++ bad :: post)) idx t kw e = _
      simp only [fanout, hr]
      rw [if_neg (by simp [hall.1])]
      rw [ih bad post (idx + 1) t kw e out hr hall.2 hbad]
      have harith : idx + 1 + rest.length = idx + (rest.length + 1) := by omega
      simp only [writesFrom, List.length_cons, harith, List.cons_append]

/-- Claim C1 counterexample: extracting from a template that repeats the
placeholder b around a placeholder a yields the identifier b twice, not the
claimed deduplicated pair. -/
theorem template_key_extraction_c1_counterexample :
    findallKeys "\x7bb\x7d \x7ba\x7d \x7bb\x7d" = ["b", "a", "b"]
    ∧ (findallKeys "\x7bb\x7d \x7ba\x7d \x7bb\x7d" == ["b", "a"]) = false := by
  decide

/-- Claim C1 (amended): the template key extractor returns the ordered
sequence of all placeholder identifiers matching an identifier enclosed in
braces, in occurrence order, repeating an identifier when its placeholder
repeats (no deduplication); every extracted identifier is non-empty and
consists of ASCII letters, digits and underscores, and the repeated-b
template extracts to the triple b, a, b. -/
theorem template_key_extraction_c1 :
    findallKeys "\x7bb\x7d \x7ba\x7d \x7bb\x7d" = ["b", "a", "b"]
    ∧ ∀ t : String, ∀ k ∈ findallKeys t,
        0 < k.data.length ∧ k.data.all isKeyChar = true := by
  refine ⟨by decide, ?_⟩
  intro t k hk
  exact scanKeys_sound t.data none (fun acc h => nomatch h) k hk

/-- Witness for C1 at a concrete template and extracted key. -/
theorem template_key_extraction_c1_witness :
    "b" ∈ findallKeys "\x7bb\x7d"
    ∧ (0 < ("b" : String).data.length
        ∧ ("b" : String).data.all isKeyChar = true) :=
  ⟨by decide, template_key_extraction_c1.2 "\x7bb\x7d" "b" (by decide)⟩

/-- Claim C2 counterexample: a logger whose template is a single opening
brace, with threshold INFO and called at INFO (so not filtered), performs
zero sink writes because the format call raises before any handler write. -/
theorem level_filtering_c2_counterexample :
    Logger.logAt lgLevelC LogLevel.INFO "m" "NOW" [] = ([], false)
    ∧ lgLevelC.level = LogLevel.INFO := by decide

/-- Claim C2 (amended): a call strictly below the threshold returns
immediately with no events of any kind, neither writes nor producer
invocations; a call at or above the threshold whose template formats
successfully against the assembled context performs at least one sink
write (counting a write attempt that raises). -/
theorem level_filtering_c2 :
    ∀ (lg : Logger) (l1 : LogLevel) (msg now : String)
      (ov : List (String × Value)),
      (l1.toNat < lg.level.toNat → Logger.logAt lg l1 msg now ov = ([], true))
      ∧ (¬ l1.toNat < lg.level.toNat → lg.handlers.isEmpty = false →
          (renderOnce lg.template (assembleContext lg l1 msg now ov)
              lg.ensure_new_lines).isSome = true →
          (Logger.logAt lg l1 msg now ov).1.any isWriteEvent = true) := by
  intro lg l1 msg now ov
  constructor
  · intro hlt
    unfold Logger.logAt
    rw [if_pos hlt]
  · intro hge hne hrend
    unfold Logger.logAt
    rw [if_neg hge]
    simp only [List.any_append, Bool.or_eq_true]
    refine Or.inr ?_
    cases hh : lg.handlers with
    | nil => rw [hh] at hne; simp at hne
    | cons h t =>
        exact fanout_cons_any_write h t 0 lg.template
          (assembleContext lg l1 msg now ov) lg.ensure_new_lines hrend

/-- Witness for C2: both branches at a concrete well-formed logger. -/
theorem level_filtering_c2_witness :
    Logger.logAt lgLevelW LogLevel.DEBUG "m" "NOW" [] = ([], true)
    ∧ (Logger.logAt lgLevelW LogLevel.INFO "m" "NOW" []).1.any isWriteEvent
        = true :=
  ⟨(level_filtering_c2 lgLevelW LogLevel.DEBUG "m" "NOW" []).1 (by decide),
   (level_filtering_c2 lgLevelW LogLevel.INFO "m" "NOW" []).2 (by decide)
     (by decide) (by decide)⟩

/-- Claim C3: every key of the template key set that is absent from the
assembled context before the sentinel loop is bound to a single backspace
character, so after assembly every template key is bound; concretely, the
template with placeholders foo and message, with no default or override for
foo, renders to a backspace, a colon-space, the message and a newline. -/
theorem missing_key_sentinel_c3 :
    (∀ (lg : Logger) (level : LogLevel) (msg now : String)
       (ov : List (String × Value)), ∀ k ∈ lg.keys,
        (dlookup (assembleBase lg level msg now ov) k = none →
          dlookup (assembleContext lg level msg now ov) k = some "\x08")
        ∧ (dlookup (assembleContext lg level msg now ov) k).isSome = true)
    ∧ Logger.logAt lgSentinel LogLevel.INFO "not provided" "NOW" []
        = ([Event.write 0 "\x08: not provided\n"], true) := by
  refine ⟨?_, by decide⟩
  intro lg level msg now ov k hk
  constructor
  · intro hnone
    unfold assembleContext
    exact dlookup_fillMissing_of_mem_none lg.keys _ k hk hnone
  · unfold assembleContext
    cases hb : dlookup (assembleBase lg level msg now ov) k with
    | none =>
        rw [dlookup_fillMissing_of_mem_none lg.keys _ k hk hb]
        rfl
    | some v =>
        rw [dlookup_fillMissing_of_isSome _ _ _ (by rw [hb]; rfl), hb]
        rfl

/-- Witness for C3 at the concrete sentinel logger and its key foo. -/
theorem missing_key_sentinel_c3_witness :
    "foo" ∈ lgSentinel.keys
    ∧ dlookup (assembleContext lgSentinel LogLevel.INFO "not provided" "NOW" [])
        "foo" = some "\x08" :=
  ⟨by decide,
   (missing_key_sentinel_c3.1 lgSentinel LogLevel.INFO "not provided" "NOW" []
     "foo" (by decide)).1 (by decide)⟩

/-- Claim C4 counterexample: with a default timestamp D and a per-call
override timestamp equal to the empty string, the rendered output is the
computed current time, which is neither the override value nor the
default. -/
theorem override_beats_default_c4_counterexample :
    Logger.logAt lgOverrideC LogLevel.INFO "m" "NOW" [("timestamp", Value.lit "")]
      = ([Event.write 0 "NOW\n"], true)
    ∧ (("NOW\n" : String) == "\n") = false
    ∧ (("NOW\n" : String) == "D\n") = false := by decide

/-- Claim C4 (amended): for every key other than timestamp, level and name,
a per-call override displaces any default: the assembled context binds the
key to the resolved override value; timestamp, level and name instead
follow the truthiness rule of the pop logic.  Concretely, default foo bar
with override foo baz renders baz. -/
theorem override_beats_default_c4 :
    (∀ (lg : Logger) (level : LogLevel) (msg now : String)
       (ov : List (String × Value)) (k : String) (v : Value),
        (ov.map Prod.fst).Nodup →
        k ≠ "timestamp" → k ≠ "level" → k ≠ "name" →
        dlookup ov k = some v →
        dlookup (assembleContext lg level msg now ov) k = some v.resolve)
    ∧ Logger.logAt lgOverride LogLevel.INFO "ok" "NOW" [("foo", Value.lit "baz")]
        = ([Event.write 0 "baz: ok\n"], true) :=
  ⟨fun lg level msg now ov k v hnd h1 h2 h3 hv =>
      dlookup_assembleContext_override lg level msg now ov k v hnd h1 h2 h3 hv,
   by decide⟩

/-- Witness for C4 at the concrete override logger. -/
theorem override_beats_default_c4_witness :
    ([("foo", Value.lit "baz")].map Prod.fst).Nodup
    ∧ dlookup (assembleContext lgOverride LogLevel.INFO "ok" "NOW"
        [("foo", Value.lit "baz")]) "foo" = some (Value.lit "baz").resolve :=
  ⟨by decide,
   override_beats_default_c4.1 lgOverride LogLevel.INFO "ok" "NOW"
     [("foo", Value.lit "baz")] "foo" (Value.lit "baz") (by decide) (by decide)
     (by decide) (by decide) (by decide)⟩

/-- Claim C5: for the keys timestamp, level and name the assembled context
always carries the popped-or-computed value: an absent or falsy (empty
string) override falls back to the computed value (the current time, the
canonical level name, the configured logger name respectively), and only a
present-and-truthy override replaces it. -/
theorem special_key_truthiness_c5 :
    (∀ (lg : Logger) (level : LogLevel) (msg now : String)
       (ov : List (String × Value)),
        dlookup (assembleContext lg level msg now ov) "timestamp"
          = some (pickSpecial (dlookup ov "timestamp") now)
        ∧ dlookup (assembleContext lg level msg now ov) "level"
          = some (pickSpecial (dlookup ov "level") level.levelName)
        ∧ dlookup (assembleContext lg level msg now ov) "name"
          = some (pickSpecial (dlookup ov "name") lg.name))
    ∧ (∀ fb : String, pickSpecial (some (Value.lit "")) fb = fb)
    ∧ (∀ (c : Char) (cs : List Char) (fb : String),
        pickSpecial (some (Value.lit (String.mk (c :: cs)))) fb
          = String.mk (c :: cs))
    ∧ (∀ fb : String, pickSpecial none fb = fb) := by
  refine ⟨?_, fun fb => rfl, fun c cs fb => rfl, fun fb => rfl⟩
  intro lg level msg now ov
  refine ⟨?_, ?_, ?_⟩ <;> unfold assembleContext
  · have hb := dlookup_assembleBase_timestamp lg level msg now ov
    rw [dlookup_fillMissing_of_isSome _ _ _ (by rw [hb]; rfl), hb]
  · have hb := dlookup_assembleBase_level lg level msg now ov
    rw [dlookup_fillMissing_of_isSome _ _ _ (by rw [hb]; rfl), hb]
  · have hb := dlookup_assembleBase_name lg level msg now ov
    rw [dlookup_fillMissing_of_isSome _ _ _ (by rw [hb]; rfl), hb]

/-- Claim C6: with the normalization flag enabled, a rendered string not
ending in a newline gains exactly one trailing newline before sink
delivery, and a string already ending in a newline is delivered unchanged;
with the flag disabled the rendered string is always delivered unchanged;
the render pipeline applies exactly this normalization to the formatted
template. -/
theorem newline_normalization_c6 :
    ∀ s : String,
      (endsWithNewline s = false → normalizeNewline true s = s ++ "\n")
      ∧ (endsWithNewline s = true → normalizeNewline true s = s)
      ∧ normalizeNewline false s = s
      ∧ ∀ (t : String) (kw : List (String × String)) (e : Bool),
          renderOnce t kw e = (pyFormat t kw).map (normalizeNewline e) := by
  intro s
  refine ⟨?_, ?_, ?_, fun t kw e => rfl⟩
  · intro h
    simp [normalizeNewline, h]
  · intro h
    simp [normalizeNewline, h]
  · simp [normalizeNewline]

/-- Witness for C6 at concrete strings with and without a newline. -/
theorem newline_normalization_c6_witness :
    normalizeNewline true "abc" = "abc" ++ "\n"
    ∧ normalizeNewline true "abc\n" = "abc\n" :=
  ⟨(newline_normalization_c6 "abc").1 (by decide),
   (newline_normalization_c6 "abc\n").2.1 (by decide)⟩

/-- Claim C7: the exception method logs at ERROR level with the message
extended by a newline and the formatted trace of the exception currently
being handled; the result is independent of the configured threshold level
(ERROR is never below any threshold); outside an active exception context
the trace text degrades to the NoneType: None indication instead of
failing. -/
theorem exception_method_c7 :
    (∀ (lg : Logger) (m : String) (exc : Option String) (now : String)
       (ov : List (String × Value)),
        Logger.exception lg m exc now ov
          = Logger.logAt lg LogLevel.ERROR (m ++ "\n" ++ format_exc exc) now ov)
    ∧ (∀ (lg : Logger) (l : LogLevel) (m : String) (exc : Option String)
       (now : String) (ov : List (String × Value)),
        Logger.exception (lg.withLevel l) m exc now ov
          = Logger.exception lg m exc now ov)
    ∧ format_exc none = "NoneType: None\n" := by
  refine ⟨fun lg m exc now ov => rfl, ?_, rfl⟩
  intro lg l m exc now ov
  obtain ⟨nm, lv, t, hs, e, df, ks⟩ := lg
  have h1 : ¬ (LogLevel.ERROR.toNat < l.toNat) := by cases l <;> decide
  have h2 : ¬ (LogLevel.ERROR.toNat < lv.toNat) := by cases lv <;> decide
  show Logger.logAt (Logger.mk nm l t hs e df ks) LogLevel.ERROR
        (m ++ "\n" ++ format_exc exc) now ov
      = Logger.logAt (Logger.mk nm lv t hs e df ks) LogLevel.ERROR
        (m ++ "\n" ++ format_exc exc) now ov
  simp only [Logger.logAt]
  rw [if_neg h1, if_neg h2]
  rfl

/-- Claim C8 counterexample: an unfiltered call on a logger whose single
sink never fails, but whose template field is not an extractable key, makes
the render raise, so no sink is written although no sink failed. -/
theorem sink_failure_fanout_c8_counterexample :
    Logger.logAt lgFanoutC LogLevel.INFO "m" "NOW" [] = ([], false)
    ∧ lgFanoutC.handlers = [defaultHandler]
    ∧ defaultHandler.fails = false := by decide

/-- Claim C8 (amended): over a sink list whose render succeeds, if some
sink write raises then the failure propagates to the caller with no retry
or suppression and none of the subsequent sinks is attempted, the preceding
sinks having been written in order; and when no sink fails every sink is
written in configuration order. -/
theorem sink_failure_fanout_c8 :
    ∀ (pre post : List Handler) (bad : Handler) (idx : Nat) (t : String)
      (kw : List (String × String)) (e : Bool) (out : String),
      renderOnce t kw e = some out →
      ((pre.all (fun g => !g.fails) = true → bad.fails = true →
         fanout (pre ++ bad :: post) idx t kw e
           = (writesFrom idx out pre.length
                ++ [Event.writeRaised (idx + pre.length) out], false))
      ∧ (pre.all (fun g => !g.fails) = true →
         fanout pre idx t kw e = (writesFrom idx out pre.length, true))) :=
  fun pre post bad idx t kw e out hr =>
    ⟨fun hall hbad => fanout_aborts pre bad post idx t kw e out hr hall hbad,
     fun hall => fanout_all_ok pre idx t kw e out hr hall⟩

/-- Witness for C8 at a concrete sink list with a failing middle sink. -/
theorem sink_failure_fanout_c8_witness :
    fanout [Handler.mk false, Handler.mk true, Handler.mk false] 0
        "\x7bmessage\x7d" [("message", "m")] true
      = ([Event.write 0 "m\n", Event.writeRaised 1 "m\n"], false)
    ∧ fanout [Handler.mk false] 0 "\x7bmessage\x7d" [("message", "m")] true
      = ([Event.write 0 "m\n"], true) :=
  ⟨(sink_failure_fanout_c8 [Handler.mk false] [Handler.mk false]
      (Handler.mk true) 0 "\x7bmessage\x7d" [("message", "m")] true "m\n"
      (by decide)).1 (by decide) (by decide),
   (sink_failure_fanout_c8 [Handler.mk false] [] (Handler.mk true)
      0 "\x7bmessage\x7d" [("message", "m")] true "m\n" (by decide)).2
      (by decide)⟩

/-- Claim C9: after construction and after every reassignment of the
template field, the stored key set equals the key extraction of the current
template string, so no log call renders against a stale key set. -/
theorem keyset_invariant_c9 :
    (∀ (name : String) (level : LogLevel) (template : String)
       (handler : Option Handler) (handlers : Option (List Handler))
       (enl : Bool) (defaults : List (String × Value)),
        (Logger.init name level template handler handlers enl defaults).keys
          = findallKeys
              (Logger.init name level template handler handlers enl
                defaults).template)
    ∧ (∀ (lg : Logger) (t : String),
        (Logger.setTemplate lg t).keys
          = findallKeys (Logger.setTemplate lg t).template) :=
  ⟨fun _ _ _ _ _ _ _ => rfl, fun _ _ => rfl⟩

/-- Claim C10: a per-call override for the key message displaces the
positional message argument: message is not among the keys popped before
the generic override merge, so the assembled context binds message to the
resolved override value, and the placeholder renders from the override. -/
theorem message_override_c10 :
    (∀ (lg : Logger) (level : LogLevel) (msg now : String)
       (ov : List (String × Value)) (v : Value),
        (ov.map Prod.fst).Nodup →
        dlookup ov "message" = some v →
        dlookup (assembleContext lg level msg now ov) "message"
          = some v.resolve)
    ∧ Logger.logAt lgMessage LogLevel.INFO "positional" "NOW"
        [("message", Value.lit "ov")]
      = ([Event.write 0 "ov\n"], true) :=
  ⟨fun lg level msg now ov v hnd hv =>
      dlookup_assembleContext_override lg level msg now ov "message" v hnd
        (by decide) (by decide) (by decide) hv,
   by decide⟩

/-- Witness for C10 at the concrete message-override logger. -/
theorem message_override_c10_witness :
    ([("message", Value.lit "ov")].map Prod.fst).Nodup
    ∧ dlookup (assembleContext lgMessage LogLevel.INFO "positional" "NOW"
        [("message", Value.lit "ov")]) "message"
      = some (Value.lit "ov").resolve :=
  ⟨by decide,
   message_override_c10.1 lgMessage LogLevel.INFO "positional" "NOW"
     [("message", Value.lit "ov")] (Value.lit "ov") (by decide) (by decide)⟩
